import Mathlib

/-!
Verification development for the elfutils split-unit resolver
(`libdw/libdw_find_split_unit.c`) and the DWARF location-expression
walker (`tests/varlocs.c`).

The C code is shallowly embedded: external collaborators (attribute/DIE
accessors, the debug-file locator, libelf container parsing, the frame
resolver) are modelled as input data carried by the embedded values,
exactly as the source consumes their results.  Machine integers carry no
arithmetic here beyond equality and range comparison, so they are
modelled as `Nat`/`Int`; the one place the source adds 64-bit values
(`addr + bias`, location-list base re-synchronisation) reduces modulo
2^64 explicitly.
-/

namespace Elfutils

/-- Truncation to 64 bits, for the places the C source adds `Dwarf_Addr`
(uint64_t) values. -/
def w64 (n : Nat) : Nat := n % 18446744073709551616

/-- `DW_UT_skeleton` unit-header type code (DWARF 5). -/
def DW_UT_skeleton : Nat := 0x04

/-- `DW_UT_split_compile` unit-header type code (DWARF 5). -/
def DW_UT_split_compile : Nat := 0x05

/-- The state of a unit's `split` field (`Dwarf_CU::split` in `libdwP.h`):
the sentinel `(Dwarf_CU *) -1` (never tried), `NULL` (tried, none found),
a pointer to the split unit at index `i` of the companion container, or a
back-pointer to the skeleton unit. -/
inductive SplitPtr where
  | unresolved
  | null
  | ptr (i : Nat)
  | skel
deriving DecidableEq, Repr

/-- A unit of the opened companion container, as `dwarf_get_units` hands
them out in header order: its `unit_type`, its 8-byte `unit_id8`
signature, and its own `split` link field. -/
structure SplitUnit where
  unit_type : Nat
  unit_id8 : Nat
  split : SplitPtr
deriving DecidableEq, Repr

/-- The skeleton unit `__libdw_find_split_unit` is called on: its
`unit_type`, its `unit_id8` signature and its `split` link field. -/
structure CU where
  unit_type : Nat
  unit_id8 : Nat
  split : SplitPtr
deriving DecidableEq, Repr

/-- Results of the external collaborators consulted by
`__libdw_find_split_unit`, in the order the source consults them:
whether a `DW_AT_dwo_name`/`DW_AT_GNU_dwo_name` attribute exists, whether
`dwarf_formstring` on `DW_AT_comp_dir` is non-NULL, whether
`__libdw_filepath` finds the file without and with the comp dir, whether
`open` and `dwarf_begin` succeed, and the companion container's units in
header order. -/
structure SplitEnv where
  hasDwoName : Bool
  compDirPresent : Bool
  pathRel : Bool
  pathCompDir : Bool
  openOk : Bool
  beginOk : Bool
  units : List SplitUnit
deriving DecidableEq, Repr

/-- State threaded through the `dwarf_get_units` scan loop: the skeleton's
`split` field, the number of `dwarf_end` calls made on the opened
container, whether the container has been freed by `dwarf_end`, how many
`dwarf_get_units` calls were issued on the already-freed container, whether
`elf_cntl ELF_C_FDDONE` ran, and the index of the matched split unit whose
own `split` field was pointed back at the skeleton. -/
structure ScanSt where
  cuSplit : SplitPtr
  dwarfEnds : Nat
  freed : Bool
  uafGets : Nat
  fddone : Bool
  matched : Option Nat
deriving DecidableEq, Repr

/-- Scan state before the loop starts: `cu->split` still the sentinel,
no `dwarf_end` issued, container alive, no back link. -/
def initScan : ScanSt := ⟨.unresolved, 0, false, 0, false, none⟩

/-- One `dwarf_get_units` call (the `while` condition, line 81): if the
container was already freed by `dwarf_end` this iterates freed memory. -/
def recordGet (st : ScanSt) : ScanSt :=
  ⟨st.cuSplit, st.dwarfEnds, st.freed, st.uafGets + (if st.freed then 1 else 0),
   st.fddone, st.matched⟩

/-- The `while (dwarf_get_units ...) == 0` loop of
`__libdw_find_split_unit` (lines 81-101), iterating the container's units
in header order with their indices.  On a unit of type
`DW_UT_split_compile` whose `unit_id8` equals the skeleton's, it links
both directions, runs `elf_cntl ELF_C_FDDONE` and breaks (lines 84-97).
Otherwise, line 99-100 as written in this source: still inside the loop
body, `if (cu->split == (Dwarf_CU *) -1) dwarf_end (split_dwarf);` frees
the container, and the loop continues on it. -/
def scanUnits (skelId : Nat) : List SplitUnit → Nat → ScanSt → ScanSt
  | [], _, st => recordGet st
  | u :: rest, i, st =>
      let st1 := recordGet st
      if u.unit_type = DW_UT_split_compile ∧ u.unit_id8 = skelId then
        ⟨.ptr i, st1.dwarfEnds, st1.freed, st1.uafGets, true, some i⟩
      else
        let st2 :=
          if st1.cuSplit = .unresolved then
            ⟨st1.cuSplit, st1.dwarfEnds + 1, true, st1.uafGets, st1.fddone, st1.matched⟩
          else st1
        scanUnits skelId rest (i + 1) st2

/-- Record the `split->split = cu;` back link (line 89) in the container's
unit list: the matched unit's `split` field now points at the skeleton. -/
def applyBackLink : Option Nat → List SplitUnit → List SplitUnit
  | none, us => us
  | some _, [] => []
  | some 0, u :: us => ⟨u.unit_type, u.unit_id8, .skel⟩ :: us
  | some (i + 1), u :: us => u :: applyBackLink (some i) us

/-- Everything observable about one call to `__libdw_find_split_unit`:
the returned/stored `cu->split`, the container's units after any back
link, the number of `open` calls issued, file descriptors opened
(successful `open`) and closed (`close`), `dwarf_end` calls on the
container, `dwarf_get_units` calls on the freed container, and whether
`elf_cntl ELF_C_FDDONE` ran. -/
structure ResolveTrace where
  cuSplit : SplitPtr
  units : List SplitUnit
  openCalls : Nat
  fdOpened : Nat
  fdClosed : Nat
  dwarfEnds : Nat
  uafGets : Nat
  fddone : Bool
deriving DecidableEq, Repr

/-- Shallow embedding of `__libdw_find_split_unit`
(`libdw/libdw_find_split_unit.c` lines 45-118).  Lines 49-51: if
`cu->split` is no longer the `-1` sentinel, return it with no further
work.  Line 56: only `DW_UT_skeleton` units attempt resolution.  Lines
62-71: require a dwo-name attribute; build the path first without the
comp dir, then, if that failed and the comp dir string is present, with
it.  Lines 74-77: `open` read-only, then `dwarf_begin`; failure of either
is soft.  Lines 81-101: the scan loop (`scanUnits`).  Line 106: `close
(split_fd)` runs whenever the `open` succeeded, on every path out of the
`dwarf_begin` block.  Lines 113-115: a still-unresolved `cu->split`
becomes `NULL` so the lookup is never retried. -/
def find_split_unit (cu : CU) (env : SplitEnv) : ResolveTrace :=
  if cu.split ≠ .unresolved then
    ⟨cu.split, env.units, 0, 0, 0, 0, 0, false⟩
  else
    let body : ScanSt × Nat × Nat × Nat :=
      if cu.unit_type = DW_UT_skeleton then
        if env.hasDwoName then
          if env.pathRel ∨ (env.compDirPresent ∧ env.pathCompDir) then
            if env.openOk then
              if env.beginOk then
                ⟨scanUnits cu.unit_id8 env.units 0 initScan, 1, 1, 1⟩
              else
                ⟨initScan, 1, 1, 1⟩
            else
              ⟨initScan, 1, 0, 0⟩
          else
            ⟨initScan, 0, 0, 0⟩
        else
          ⟨initScan, 0, 0, 0⟩
      else
        ⟨initScan, 0, 0, 0⟩
    let st := body.1
    let fin := if st.cuSplit = .unresolved then SplitPtr.null else st.cuSplit
    ⟨fin, applyBackLink st.matched env.units, body.2.1, body.2.2.1, body.2.2.2,
     st.dwarfEnds, st.uafGets, st.fddone⟩

/-- Index of the first unit in header order of kind `DW_UT_split_compile`
whose signature equals the skeleton's — the selection rule the spec
states for the scan. -/
def firstMatch (skelId : Nat) : List SplitUnit → Option Nat
  | [] => none
  | u :: rest =>
      if u.unit_type = DW_UT_split_compile ∧ u.unit_id8 = skelId then some 0
      else (firstMatch skelId rest).map (· + 1)

theorem scanUnits_spec (skelId : Nat) :
    ∀ (us : List SplitUnit) (i : Nat) (st : ScanSt),
    st.cuSplit = .unresolved → st.matched = none →
    (match firstMatch skelId us with
     | some j =>
        (scanUnits skelId us i st).cuSplit = .ptr (i + j) ∧
        (scanUnits skelId us i st).matched = some (i + j) ∧
        (scanUnits skelId us i st).fddone = true ∧
        j < us.length
     | none =>
        (scanUnits skelId us i st).cuSplit = .unresolved ∧
        (scanUnits skelId us i st).matched = none)
  | [], i, st, h1, h2 => by
      simp [firstMatch, scanUnits, recordGet, h1, h2]
  | u :: rest, i, st, h1, h2 => by
      by_cases hm : u.unit_type = DW_UT_split_compile ∧ u.unit_id8 = skelId
      · simp [firstMatch, scanUnits, hm]
      · have hcu : (recordGet st).cuSplit = SplitPtr.unresolved := by
          simpa [recordGet] using h1
        have hrec := scanUnits_spec skelId rest (i + 1)
            ⟨(recordGet st).cuSplit, (recordGet st).dwarfEnds + 1, true,
             (recordGet st).uafGets, (recordGet st).fddone, (recordGet st).matched⟩
            hcu (by simpa [recordGet] using h2)
        have hunfold : scanUnits skelId (u :: rest) i st =
            scanUnits skelId rest (i + 1)
              ⟨(recordGet st).cuSplit, (recordGet st).dwarfEnds + 1, true,
               (recordGet st).uafGets, (recordGet st).fddone, (recordGet st).matched⟩ := by
          simp only [scanUnits]
          rw [if_neg hm, if_pos hcu]
        rw [hunfold]
        simp only [firstMatch]
        rw [if_neg hm]
        cases hfm : firstMatch skelId rest with
        | none =>
            rw [hfm] at hrec
            simpa using hrec
        | some j =>
            rw [hfm] at hrec
            refine ⟨?_, ?_, hrec.2.2.1, ?_⟩
            · rw [show i + (j + 1) = i + 1 + j by omega]; exact hrec.1
            · rw [show i + (j + 1) = i + 1 + j by omega]; exact hrec.2.1
            · simpa using hrec.2.2.2

theorem applyBackLink_split :
    ∀ (i : Nat) (us : List SplitUnit), i < us.length →
    ((applyBackLink (some i) us)[i]?).map SplitUnit.split = some SplitPtr.skel
  | 0, u :: us, _ => by simp [applyBackLink]
  | i + 1, u :: us, h => by
      simpa [applyBackLink] using
        applyBackLink_split i us (by simpa using Nat.lt_of_succ_lt_succ h)

theorem ite_ne_unresolved (x : SplitPtr) :
    (if x = SplitPtr.unresolved then SplitPtr.null else x) ≠ SplitPtr.unresolved := by
  by_cases h : x = SplitPtr.unresolved <;> simp [h]

theorem find_split_unit_ne_unresolved (cu : CU) (env : SplitEnv) :
    (find_split_unit cu env).cuSplit ≠ .unresolved := by
  unfold find_split_unit
  by_cases h : cu.split ≠ .unresolved
  · rw [if_pos h]; exact h
  · rw [if_neg h]
    exact ite_ne_unresolved _

/-- Claim C2: split-unit resolution is memoized with at-most-once
semantics.  After a first call, the link field is no longer `Unresolved`;
a second call (against any environment) returns the identical link,
issues no `open`, touches no file descriptor, runs no `dwarf_end`, and
leaves both the link field and the container's units unchanged. -/
theorem c2_memoized (cu : CU) (env env2 : SplitEnv) :
    (find_split_unit cu env).cuSplit ≠ SplitPtr.unresolved ∧
    (find_split_unit ⟨cu.unit_type, cu.unit_id8, (find_split_unit cu env).cuSplit⟩ env2) =
      ⟨(find_split_unit cu env).cuSplit, env2.units, 0, 0, 0, 0, 0, false⟩ := by
  refine ⟨find_split_unit_ne_unresolved cu env, ?_⟩
  have h := find_split_unit_ne_unresolved cu env
  rw [find_split_unit]
  simp [h]

/-- Claim C4: the descriptor opened for a candidate companion file is
closed on every exit path — every successfully opened descriptor is
closed by the end of the call, so the open-descriptor count returns to
its baseline; and on the matched path the descriptor was first detached
from the retained container via `elf_cntl ELF_C_FDDONE`. -/
theorem c4_fd_hygiene (cu : CU) (env : SplitEnv) :
    (find_split_unit cu env).fdOpened = (find_split_unit cu env).fdClosed ∧
    (cu.split = SplitPtr.unresolved → ∀ i,
      (find_split_unit cu env).cuSplit = SplitPtr.ptr i →
      (find_split_unit cu env).fddone = true) := by
  constructor
  · unfold find_split_unit
    by_cases h : cu.split ≠ .unresolved
    · simp [h]
    · simp only [h, if_false]
      split <;> first
        | rfl
        | (split <;> first
            | rfl
            | (split <;> first
                | rfl
                | (split <;> first
                    | rfl
                    | (split <;> rfl))))
  · intro hu i hptr
    revert hptr
    unfold find_split_unit
    simp only [hu, ne_eq, not_true_eq_false, if_false]
    by_cases hsk : cu.unit_type = DW_UT_skeleton
    · simp only [hsk, if_true]
      by_cases hdw : env.hasDwoName
      · simp only [hdw, if_true]
        by_cases hp : env.pathRel ∨ (env.compDirPresent ∧ env.pathCompDir)
        · simp only [hp, if_true]
          by_cases ho : env.openOk
          · simp only [ho, if_true]
            by_cases hb : env.beginOk
            · simp only [hb, if_true]
              have hs := scanUnits_spec cu.unit_id8 env.units 0 initScan rfl rfl
              cases hfm : firstMatch cu.unit_id8 env.units with
              | some j =>
                  rw [hfm] at hs
                  simp [hs.1, hs.2.1, hs.2.2.1]
              | none =>
                  rw [hfm] at hs
                  simp [hs.1]
            · simp [hb, initScan]
          · simp [ho, initScan]
        · simp [hp, initScan]
      · simp [hdw, initScan]
    · simp [hsk, initScan]

/-- Skeleton unit used for the concrete resolution runs below: a
`DW_UT_skeleton` unit with signature 7 and an unresolved link. -/
def skelCU : CU := ⟨DW_UT_skeleton, 7, .unresolved⟩

/-- Concrete run for C4: a matched resolution whose descriptor was
detached before the close; opened descriptors equal closed ones. -/
theorem c4_fd_hygiene_witness :
    (skelCU.split = SplitPtr.unresolved ∧
     (find_split_unit skelCU
        ⟨true, true, true, true, true, true,
         [⟨DW_UT_split_compile, 7, .unresolved⟩]⟩).cuSplit = SplitPtr.ptr 0) ∧
    (find_split_unit skelCU
        ⟨true, true, true, true, true, true,
         [⟨DW_UT_split_compile, 7, .unresolved⟩]⟩).fddone = true :=
  ⟨⟨rfl, by decide⟩,
   (c4_fd_hygiene skelCU
      ⟨true, true, true, true, true, true,
       [⟨DW_UT_split_compile, 7, .unresolved⟩]⟩).2 rfl 0 (by decide)⟩

/-- Companion container holding two split-compile units whose signatures
(8 and 9) both differ from the skeleton's (7); every locator and open
step succeeds. -/
def envTwoMismatch : SplitEnv :=
  ⟨true, true, true, true, true, true,
   [⟨DW_UT_split_compile, 8, .unresolved⟩, ⟨DW_UT_split_compile, 9, .unresolved⟩]⟩

/-- Companion container whose first unit's signature (8) differs from the
skeleton's (7) and whose second unit matches. -/
def envMatchSecond : SplitEnv :=
  ⟨true, true, true, true, true, true,
   [⟨DW_UT_split_compile, 8, .unresolved⟩, ⟨DW_UT_split_compile, 7, .unresolved⟩]⟩

/-- Claim C1 (code bug): with `dwarf_end` inside the scan loop (lines
99-100 of this source), an exhausted scan over two non-matching units
discards the opened container twice — the second `dwarf_end` and the
later `dwarf_get_units` calls operate on the already-freed container —
and when the match sits after a mismatch the container has already been
discarded once before it is "retained".  The claimed behaviour (discard
exactly once, only after the scan is over, never before a match) does not
hold on this code. -/
theorem c1_discard_inside_scan :
    (find_split_unit skelCU envTwoMismatch).cuSplit = .null ∧
    (find_split_unit skelCU envTwoMismatch).dwarfEnds = 2 ∧
    (find_split_unit skelCU envTwoMismatch).uafGets = 2 ∧
    (find_split_unit skelCU envMatchSecond).cuSplit = .ptr 1 ∧
    (find_split_unit skelCU envMatchSecond).dwarfEnds = 1 ∧
    (find_split_unit skelCU envMatchSecond).uafGets = 1 := by decide

/-- Claim C5: the scan accepts exactly the first unit in header order of
kind split-compile whose signature equals the skeleton's; earlier units
with a different signature or kind are rejected without stopping the
scan, and an exhausted scan yields the `NULL` link. -/
theorem c5_first_match (cu : CU) (env : SplitEnv)
    (h1 : cu.split = SplitPtr.unresolved)
    (h2 : cu.unit_type = DW_UT_skeleton)
    (h3 : env.hasDwoName = true)
    (h4 : env.pathRel ∨ (env.compDirPresent ∧ env.pathCompDir))
    (h5 : env.openOk = true) (h6 : env.beginOk = true) :
    (find_split_unit cu env).cuSplit =
      (match firstMatch cu.unit_id8 env.units with
       | some i => SplitPtr.ptr i
       | none => SplitPtr.null) := by
  unfold find_split_unit
  simp only [h1, ne_eq, not_true_eq_false, if_false, h2, h3, h4, h5, h6, if_true]
  have hs := scanUnits_spec cu.unit_id8 env.units 0 initScan rfl rfl
  cases hfm : firstMatch cu.unit_id8 env.units with
  | some j =>
      rw [hfm] at hs
      simp [hs.1]
  | none =>
      rw [hfm] at hs
      simp [hs.1]

/-- Concrete run for C5: the first unit has the wrong signature and the
second and third both match; the second (index 1) is linked. -/
theorem c5_first_match_witness :
    (skelCU.split = SplitPtr.unresolved ∧ skelCU.unit_type = DW_UT_skeleton) ∧
    (find_split_unit skelCU
        ⟨true, true, true, true, true, true,
         [⟨DW_UT_split_compile, 8, .unresolved⟩, ⟨DW_UT_split_compile, 7, .unresolved⟩,
          ⟨DW_UT_split_compile, 7, .unresolved⟩]⟩).cuSplit =
      (match firstMatch skelCU.unit_id8
          [⟨DW_UT_split_compile, 8, .unresolved⟩, ⟨DW_UT_split_compile, 7, .unresolved⟩,
           ⟨DW_UT_split_compile, 7, .unresolved⟩] with
       | some i => SplitPtr.ptr i
       | none => SplitPtr.null) :=
  ⟨⟨rfl, rfl⟩,
   c5_first_match skelCU
     ⟨true, true, true, true, true, true,
      [⟨DW_UT_split_compile, 8, .unresolved⟩, ⟨DW_UT_split_compile, 7, .unresolved⟩,
       ⟨DW_UT_split_compile, 7, .unresolved⟩]⟩
     rfl rfl rfl (by decide) rfl rfl⟩

/-- Claim C6: whenever the call links the skeleton to split unit `i`, the
link is symmetric — immediately afterwards that unit's own `split` field
points back at the skeleton. -/
theorem c6_symmetry (cu : CU) (env : SplitEnv) (i : Nat)
    (h1 : cu.split = SplitPtr.unresolved)
    (h2 : (find_split_unit cu env).cuSplit = SplitPtr.ptr i) :
    (((find_split_unit cu env).units)[i]?).map SplitUnit.split =
      some SplitPtr.skel := by
  revert h2
  unfold find_split_unit
  simp only [h1, ne_eq, not_true_eq_false, if_false]
  by_cases hsk : cu.unit_type = DW_UT_skeleton
  · simp only [hsk, if_true]
    by_cases hdw : env.hasDwoName
    · simp only [hdw, if_true]
      by_cases hp : env.pathRel ∨ (env.compDirPresent ∧ env.pathCompDir)
      · simp only [hp, if_true]
        by_cases ho : env.openOk
        · simp only [ho, if_true]
          by_cases hb : env.beginOk
          · simp only [hb, if_true]
            have hs := scanUnits_spec cu.unit_id8 env.units 0 initScan rfl rfl
            cases hfm : firstMatch cu.unit_id8 env.units with
            | some j =>
                rw [hfm] at hs
                simp only [Nat.zero_add] at hs
                simp only [hs.1, hs.2.1]
                intro hij
                have hji : j = i := by
                  simpa using hij
                subst hji
                exact applyBackLink_split j env.units hs.2.2.2
            | none =>
                rw [hfm] at hs
                simp [hs.1]
          · simp [hb, initScan]
        · simp [ho, initScan]
      · simp [hp, initScan]
    · simp [hdw, initScan]
  · simp [hsk, initScan]

/-- Concrete run for C6: the second unit (index 1) matches; after the
call its `split` field is the skeleton back pointer. -/
theorem c6_symmetry_witness :
    (skelCU.split = SplitPtr.unresolved ∧
     (find_split_unit skelCU envMatchSecond).cuSplit = SplitPtr.ptr 1) ∧
    (((find_split_unit skelCU envMatchSecond).units)[1]?).map SplitUnit.split =
      some SplitPtr.skel :=
  ⟨⟨rfl, by decide⟩, c6_symmetry skelCU envMatchSecond 1 rfl (by decide)⟩

/-! ## Location-expression walker (`tests/varlocs.c`) -/

/-- `DW_OP_addr` opcode. -/
def DW_OP_addr : Nat := 0x03

/-- `DW_OP_fbreg` opcode. -/
def DW_OP_fbreg : Nat := 0x91

/-- `DW_OP_bregx` opcode. -/
def DW_OP_bregx : Nat := 0x92

/-- `DW_OP_nop` opcode. -/
def DW_OP_nop : Nat := 0x96

/-- `DW_OP_push_object_address` opcode. -/
def DW_OP_push_object_address : Nat := 0x97

/-- `DW_OP_call_frame_cfa` opcode. -/
def DW_OP_call_frame_cfa : Nat := 0x9c

/-- `DW_OP_bit_piece` opcode. -/
def DW_OP_bit_piece : Nat := 0x9d

/-- `DW_OP_implicit_value` opcode. -/
def DW_OP_implicit_value : Nat := 0x9e

/-- `DW_OP_implicit_pointer` opcode. -/
def DW_OP_implicit_pointer : Nat := 0xa0

/-- `DW_OP_entry_value` opcode. -/
def DW_OP_entry_value : Nat := 0xa3

/-- `DW_OP_GNU_variable_value` opcode. -/
def DW_OP_GNU_variable_value : Nat := 0xfd

/-- One rendered fragment of `print_expr`'s output: an opcode name with
its printed operands, a die-offset reference, a byte blob, the `{...}`
placeholder, or the `<no location>` / `<constant value>` markers.  The
brace/comma layout of the C output is elided. -/
inductive Item where
  | opname (atom : Nat)
  | opU (atom : Nat) (n : Nat)
  | opS (atom : Nat) (n : Int)
  | opUS (atom : Nat) (n : Nat) (n2 : Int)
  | opUU (atom : Nat) (n n2 : Nat)
  | opLen (atom : Nat) (n : Nat)
  | dieRef (atom : Nat) (off : Nat)
  | dieRefS (atom : Nat) (off : Nat) (n2 : Int)
  | bytes (bs : List Nat)
  | placeholder
  | noLocation
  | constValue
deriving DecidableEq, Repr

/-- The hard-error exits of `print_expr`: each `error (EXIT_FAILURE, ...)`
call and each failed `assert`. -/
inductive Err where
  | depthExceeded
  | usedInCFI (atom : Nat)
  | noCfiFound
  | frameCfaFailed
  | frameCfaNoOps
  | addrframeFailed
  | getlocationAttrFailed
  | getlocationDieFailed
  | getlocationFailed
  | formblockFailed
  | implicitValueFailed
  | implicitPointerFailed
  | assertFailed
  | multipleLocations
  | noFrameBase
  | unhandledOpcode (atom : Nat)
deriving DecidableEq, Repr

mutual
/-- One `Dwarf_Op` together with the results of the external accessor
calls (`dwarf_getlocation_attr`, `dwarf_getlocation_die`,
`dwarf_getlocation`, `dwarf_formblock`,
`dwarf_getlocation_implicit_value`, `dwarf_getlocation_implicit_pointer`)
that `print_expr` makes for it — one constructor per operand class of the
C switch, carrying the opcode where the class covers several opcodes.
Classes of `varlocs.c` not touched by any claim (parameter-ref,
typed-conversion, typed-register/deref/const, address-table) are
represented by `unknown`, which like the C default case is a hard
error. -/
inductive Op where
  | nullary (atom : Nat)
  | push_object_address
  | call_frame_cfa
  | addrArg (number : Nat)
  | unsignedArg (atom : Nat) (number : Nat)
  | callOp (atom : Nat) (attrOk dieOk : Bool) (dieOff : Nat) (callOps : Option (List Op))
  | signedArg (atom : Nat) (number : Int)
  | fbreg (number : Int)
  | bregx (number : Nat) (number2 : Int)
  | bit_piece (number number2 : Nat)
  | implicit_value (number : Nat) (attrOk : Bool) (block blockImpl : Option (List Nat))
  | implicit_pointer (atom : Nat) (number2 : Int) (ipOk attr2Ok agree dieOk : Bool)
      (dieOff : Nat) (isConst : Bool) (loclist : List LocEntry)
  | variable_value (attrOk dieOk : Bool) (dieOff : Nat) (isConst : Bool)
      (loclist : List LocEntry)
  | entry_value (atom : Nat) (attrOk : Bool) (entryOps : Option (List Op))
  | unknown (atom : Nat)

/-- One entry of a referenced DIE's location list: either a base-address
re-synchronisation entry or a `[begin,end)` range with its expression. -/
inductive LocEntry where
  | baseAddr (base : Nat)
  | range (rbegin rend : Nat) (ops : List Op)
end

/-- Result of resolving an address to a frame via one CFI table:
`cfa_ops` is what `dwarf_frame_cfa` returns for that frame (`none` when
it fails). -/
structure FrameRes where
  cfa_ops : Option (List Op)

/-- The globals of `varlocs.c` that `print_expr` consults: presence and
bias of the two CFI tables, the `--debug` and `ET_REL` flags, the
`has_frame_base` flag computed by the enclosing scope walk, and the two
external address-to-frame resolvers. -/
structure Ctx where
  cfi_eh_present : Bool
  cfi_debug_present : Bool
  cfi_eh_bias : Nat
  cfi_debug_bias : Nat
  is_debug : Bool
  is_ET_REL : Bool
  has_frame_base : Bool
  frame_eh : Nat → Option FrameRes
  frame_debug : Nat → Option FrameRes

/-- The two `dwarf_cfi_addrframe` attempts of lines 275-277: first the
`.eh_frame` table, then the `.debug_frame` table, each at the queried
address plus that table's bias; an absent table resolves nothing. -/
def cfiAddrframe (ctx : Ctx) (addr : Nat) : Option FrameRes :=
  match (if ctx.cfi_eh_present then ctx.frame_eh (w64 (addr + ctx.cfi_eh_bias)) else none) with
  | some fr => some fr
  | none =>
      if ctx.cfi_debug_present then ctx.frame_debug (w64 (addr + ctx.cfi_debug_bias))
      else none

/-- Modelled from the spec: the expressions of the location-list entries
covering `addr`, for the external location-list lookup whose
implementation (`dwarf_getlocation_addr`) is not part of this source
tree.  Per spec §4.2: iterate entries in order; a base-address entry
re-synchronises the implicit base for later entries and never matches
itself; a range entry covers the address when the half-open interval
`[base+begin, base+end)` contains it (zero-length ranges therefore cover
nothing). -/
def coveringExprs (addr : Nat) : List LocEntry → Nat → List (List Op)
  | [], _ => []
  | .baseAddr b :: rest, _ => coveringExprs addr rest b
  | .range rb re ops :: rest, base =>
      if w64 (base + rb) ≤ addr ∧ addr < w64 (base + re) then
        ops :: coveringExprs addr rest base
      else
        coveringExprs addr rest base

/-- Modelled from the spec: the single-shot `dwarf_getlocation_addr`
contract of spec §4.2 — no covering entry is the soft `none` (optimized
out), exactly one covering entry is returned, and more than one covering
entry (overlapping ranges) is itself an error. -/
def getlocation_addr (ll : List LocEntry) (addr : Nat) : Except Err (Option (List Op)) :=
  match coveringExprs addr ll 0 with
  | [] => .ok none
  | [ops] => .ok (some ops)
  | _ => .error .multipleLocations

/-- `MAX_DEPTH` of `print_expr` (line 195). -/
def MAX_DEPTH : Nat := 64

mutual
/-- Shallow embedding of `print_expr` (`tests/varlocs.c` lines 192-707).
The entry check is line 196: `if (depth++ > MAX_DEPTH)` is a hard error;
every nested evaluation receives the incremented depth.  Each constructor
case follows the corresponding `switch` case: the no-argument group
prints its opcode name; `DW_OP_push_object_address` requires a non-NULL
attribute; `DW_OP_call_frame_cfa` (lines 260-298) requires a non-NULL
attribute, errors when no CFI exists at all outside `--debug` mode, then
either evaluates the resolved frame's CFA expression (with a NULL
attribute and address 0), emits the `{...}` placeholder under
`ET_REL`/`--debug`, or errors; the call ops (lines 329-357) fetch the
referenced DIE's location and evaluate it; `DW_OP_fbreg` (lines 371-380)
requires a non-NULL attribute and a known frame base;
`DW_OP_implicit_value` (lines 394-423) derives the blob through
`dwarf_formblock` and `dwarf_getlocation_implicit_value` and asserts the
declared length and both blobs agree; the implicit-pointer and
variable-value ops (lines 425-517) render a constant value, or look the
referenced DIE's location up at the current address — zero entries is
`<no location>`, one entry is evaluated, otherwise a hard error; the
entry-value ops (lines 519-541) evaluate the nested block under the same
attribute; anything else is the `unhandled opcode` error. -/
def print_expr (ctx : Ctx) (hasAttr : Bool) (e : Op) (addr : Nat) (depth : Nat) :
    Except Err (List Item) :=
  if h : MAX_DEPTH < depth then .error .depthExceeded
  else
    match e with
    | .nullary atom => .ok [.opname atom]
    | .push_object_address =>
        if hasAttr then .ok [.opname DW_OP_push_object_address]
        else .error (.usedInCFI DW_OP_push_object_address)
    | .call_frame_cfa =>
        if ¬ hasAttr then .error (.usedInCFI DW_OP_call_frame_cfa)
        else if ¬ ctx.cfi_eh_present ∧ ¬ ctx.cfi_debug_present ∧ ¬ ctx.is_debug then
          .error .noCfiFound
        else
          match cfiAddrframe ctx addr with
          | some fr =>
              match fr.cfa_ops with
              | none => .error .frameCfaFailed
              | some ops =>
                  if ops.length < 1 then .error .frameCfaNoOps
                  else
                    match print_expr_block ctx false ops 0 (depth + 1) with
                    | .error er => .error er
                    | .ok sub => .ok (.opname DW_OP_call_frame_cfa :: sub)
          | none =>
              if ctx.is_ET_REL ∨ ctx.is_debug then
                .ok [.opname DW_OP_call_frame_cfa, .placeholder]
              else .error .addrframeFailed
    | .addrArg n => .ok [.opU DW_OP_addr n]
    | .unsignedArg atom n => .ok [.opU atom n]
    | .callOp atom attrOk dieOk dieOff callOps =>
        if ¬ hasAttr then .error (.usedInCFI atom)
        else if ¬ attrOk then .error .getlocationAttrFailed
        else if ¬ dieOk then .error .getlocationDieFailed
        else
          match callOps with
          | none => .error .getlocationFailed
          | some ops =>
              match print_expr_block ctx true ops addr (depth + 1) with
              | .error er => .error er
              | .ok sub => .ok (.dieRef atom dieOff :: sub)
    | .signedArg atom n => .ok [.opS atom n]
    | .fbreg n =>
        if ¬ hasAttr then .error (.usedInCFI DW_OP_fbreg)
        else if ¬ ctx.has_frame_base then .error .noFrameBase
        else .ok [.opS DW_OP_fbreg n]
    | .bregx n n2 => .ok [.opUS DW_OP_bregx n n2]
    | .bit_piece n n2 => .ok [.opUU DW_OP_bit_piece n n2]
    | .implicit_value n cOk blk blkI =>
        if ¬ cOk then .error .getlocationAttrFailed
        else
          match blk with
          | none => .error .formblockFailed
          | some b =>
              match blkI with
              | none => .error .implicitValueFailed
              | some bi =>
                  if n ≠ b.length then .error .assertFailed
                  else if b.length ≠ bi.length then .error .assertFailed
                  else if b ≠ bi then .error .assertFailed
                  else .ok [.opLen DW_OP_implicit_value b.length, .bytes b]
    | .implicit_pointer atom n2 ipOk attr2Ok agree dieOk dieOff isConst ll =>
        if ¬ hasAttr then .error (.usedInCFI atom)
        else if ¬ ipOk then .error .implicitPointerFailed
        else if ¬ attr2Ok then .error .getlocationAttrFailed
        else if ¬ agree then .error .assertFailed
        else if ¬ dieOk then .error .getlocationDieFailed
        else if isConst then .ok [.dieRefS atom dieOff n2, .constValue]
        else
          match getlocation_addr ll addr with
          | .error er => .error er
          | .ok none => .ok [.dieRefS atom dieOff n2, .noLocation]
          | .ok (some ops) =>
              match print_expr_block ctx true ops addr (depth + 1) with
              | .error er => .error er
              | .ok sub => .ok (.dieRefS atom dieOff n2 :: sub)
    | .variable_value attrOk dieOk dieOff isConst ll =>
        if ¬ hasAttr then .error (.usedInCFI DW_OP_GNU_variable_value)
        else if ¬ attrOk then .error .getlocationAttrFailed
        else if ¬ dieOk then .error .getlocationDieFailed
        else if isConst then .ok [.dieRef DW_OP_GNU_variable_value dieOff, .constValue]
        else
          match getlocation_addr ll addr with
          | .error er => .error er
          | .ok none => .ok [.dieRef DW_OP_GNU_variable_value dieOff, .noLocation]
          | .ok (some ops) =>
              match print_expr_block ctx true ops addr (depth + 1) with
              | .error er => .error er
              | .ok sub => .ok (.dieRef DW_OP_GNU_variable_value dieOff :: sub)
    | .entry_value atom attrOk entryOps =>
        if ¬ attrOk then .error .getlocationAttrFailed
        else
          match entryOps with
          | none => .error .getlocationFailed
          | some ops =>
              match print_expr_block ctx hasAttr ops addr (depth + 1) with
              | .error er => .error er
              | .ok sub => .ok (.opLen atom ops.length :: sub)
    | .unknown atom => .error (.unhandledOpcode atom)
termination_by (MAX_DEPTH + 1 - depth, 0)
decreasing_by
  all_goals simp_wf
  all_goals exact Prod.Lex.left _ _ (by omega)

/-- Shallow embedding of `print_expr_block` (lines 169-180): evaluate
each operation of the block in order, at the same address and (already
incremented) depth, concatenating the rendered items; the first hard
error aborts.  The brace/comma separators of the C output are elided. -/
def print_expr_block (ctx : Ctx) (hasAttr : Bool) (es : List Op) (addr : Nat) (depth : Nat) :
    Except Err (List Item) :=
  match es with
  | [] => .ok []
  | e :: rest =>
      match print_expr ctx hasAttr e addr depth with
      | .error er => .error er
      | .ok xs =>
          match print_expr_block ctx hasAttr rest addr depth with
          | .error er => .error er
          | .ok ys => .ok (xs ++ ys)
termination_by (MAX_DEPTH + 1 - depth, es.length + 1)
decreasing_by
  all_goals simp_wf
  all_goals exact Prod.Lex.right _ (by omega)
end

/-- Whether an evaluation ended without a hard error. -/
def isOk : Except Err (List Item) → Bool
  | .ok _ => true
  | .error _ => false

theorem print_expr_depth_exceeded (ctx : Ctx) (hA : Bool) (e : Op) (a d : Nat)
    (h : MAX_DEPTH < d) : print_expr ctx hA e a d = .error .depthExceeded := by
  unfold print_expr
  rw [dif_pos h]

theorem print_expr_nullary (ctx : Ctx) (hA : Bool) (atom : Nat) (a d : Nat)
    (hlt : ¬ MAX_DEPTH < d) :
    print_expr ctx hA (Op.nullary atom) a d = .ok [.opname atom] := by
  unfold print_expr
  rw [dif_neg hlt]

theorem print_expr_fbreg (ctx : Ctx) (hA : Bool) (n : Int) (a d : Nat)
    (hlt : ¬ MAX_DEPTH < d) :
    print_expr ctx hA (Op.fbreg n) a d =
      (if ¬ hA then .error (.usedInCFI DW_OP_fbreg)
       else if ¬ ctx.has_frame_base then .error .noFrameBase
       else .ok [.opS DW_OP_fbreg n]) := by
  unfold print_expr
  rw [dif_neg hlt]

theorem print_expr_cfa (ctx : Ctx) (hA : Bool) (a d : Nat)
    (hlt : ¬ MAX_DEPTH < d) :
    print_expr ctx hA Op.call_frame_cfa a d =
      (if ¬ hA then .error (.usedInCFI DW_OP_call_frame_cfa)
       else if ¬ ctx.cfi_eh_present ∧ ¬ ctx.cfi_debug_present ∧ ¬ ctx.is_debug then
         .error .noCfiFound
       else
         match cfiAddrframe ctx a with
         | some fr =>
             match fr.cfa_ops with
             | none => .error .frameCfaFailed
             | some ops =>
                 if ops.length < 1 then .error .frameCfaNoOps
                 else
                   match print_expr_block ctx false ops 0 (d + 1) with
                   | .error er => .error er
                   | .ok sub => .ok (.opname DW_OP_call_frame_cfa :: sub)
         | none =>
             if ctx.is_ET_REL ∨ ctx.is_debug then
               .ok [.opname DW_OP_call_frame_cfa, .placeholder]
             else .error .addrframeFailed) := by
  unfold print_expr
  rw [dif_neg hlt]

theorem print_expr_implicit_value (ctx : Ctx) (hA : Bool) (n : Nat) (cOk : Bool)
    (blk blkI : Option (List Nat)) (a d : Nat) (hlt : ¬ MAX_DEPTH < d) :
    print_expr ctx hA (Op.implicit_value n cOk blk blkI) a d =
      (if ¬ cOk then .error .getlocationAttrFailed
       else
         match blk with
         | none => .error .formblockFailed
         | some b =>
             match blkI with
             | none => .error .implicitValueFailed
             | some bi =>
                 if n ≠ b.length then .error .assertFailed
                 else if b.length ≠ bi.length then .error .assertFailed
                 else if b ≠ bi then .error .assertFailed
                 else .ok [.opLen DW_OP_implicit_value b.length, .bytes b]) := by
  unfold print_expr
  rw [dif_neg hlt]

theorem print_expr_implicit_pointer (ctx : Ctx) (hA : Bool) (atom : Nat) (n2 : Int)
    (ipOk attr2Ok agree dieOk : Bool) (dieOff : Nat) (isConst : Bool)
    (ll : List LocEntry) (a d : Nat) (hlt : ¬ MAX_DEPTH < d) :
    print_expr ctx hA (Op.implicit_pointer atom n2 ipOk attr2Ok agree dieOk dieOff isConst ll) a d =
      (if ¬ hA then .error (.usedInCFI atom)
       else if ¬ ipOk then .error .implicitPointerFailed
       else if ¬ attr2Ok then .error .getlocationAttrFailed
       else if ¬ agree then .error .assertFailed
       else if ¬ dieOk then .error .getlocationDieFailed
       else if isConst then .ok [.dieRefS atom dieOff n2, .constValue]
       else
         match getlocation_addr ll a with
         | .error er => .error er
         | .ok none => .ok [.dieRefS atom dieOff n2, .noLocation]
         | .ok (some ops) =>
             match print_expr_block ctx true ops a (d + 1) with
             | .error er => .error er
             | .ok sub => .ok (.dieRefS atom dieOff n2 :: sub)) := by
  unfold print_expr
  rw [dif_neg hlt]

theorem print_expr_variable_value (ctx : Ctx) (hA : Bool) (attrOk dieOk : Bool)
    (dieOff : Nat) (isConst : Bool) (ll : List LocEntry) (a d : Nat)
    (hlt : ¬ MAX_DEPTH < d) :
    print_expr ctx hA (Op.variable_value attrOk dieOk dieOff isConst ll) a d =
      (if ¬ hA then .error (.usedInCFI DW_OP_GNU_variable_value)
       else if ¬ attrOk then .error .getlocationAttrFailed
       else if ¬ dieOk then .error .getlocationDieFailed
       else if isConst then .ok [.dieRef DW_OP_GNU_variable_value dieOff, .constValue]
       else
         match getlocation_addr ll a with
         | .error er => .error er
         | .ok none => .ok [.dieRef DW_OP_GNU_variable_value dieOff, .noLocation]
         | .ok (some ops) =>
             match print_expr_block ctx true ops a (d + 1) with
             | .error er => .error er
             | .ok sub => .ok (.dieRef DW_OP_GNU_variable_value dieOff :: sub)) := by
  unfold print_expr
  rw [dif_neg hlt]

theorem print_expr_entry_value (ctx : Ctx) (hA : Bool) (atom : Nat) (aOk : Bool)
    (entryOps : Option (List Op)) (a d : Nat) (hlt : ¬ MAX_DEPTH < d) :
    print_expr ctx hA (Op.entry_value atom aOk entryOps) a d =
      (if ¬ aOk then .error .getlocationAttrFailed
       else
         match entryOps with
         | none => .error .getlocationFailed
         | some ops =>
             match print_expr_block ctx hA ops a (d + 1) with
             | .error er => .error er
             | .ok sub => .ok (.opLen atom ops.length :: sub)) := by
  unfold print_expr
  rw [dif_neg hlt]

theorem print_expr_block_singleton (ctx : Ctx) (hA : Bool) (e : Op) (a d : Nat) :
    print_expr_block ctx hA [e] a d =
      (match print_expr ctx hA e a d with
       | .error er => .error er
       | .ok xs => .ok xs) := by
  cases hpe : print_expr ctx hA e a d with
  | error er => simp [print_expr_block, hpe]
  | ok xs => simp [print_expr_block, hpe]

/-- Context with no CFI tables, not `ET_REL`, `--debug` off, frame base
known in scope. -/
def ctxPlain : Ctx := ⟨false, false, 0, 0, false, false, true, fun _ => none, fun _ => none⟩

/-- Nested entry-value expressions: evaluating `chainEV n` descends
through `n` nested sub-expression evaluations below the starting
depth. -/
def chainEV : Nat → Op
  | 0 => .nullary DW_OP_nop
  | n + 1 => .entry_value DW_OP_entry_value true (some [chainEV n])

theorem chainEV_eval (ctx : Ctx) (hA : Bool) :
    ∀ (n d a : Nat),
    (n + d ≤ MAX_DEPTH → isOk (print_expr ctx hA (chainEV n) a d) = true) ∧
    (MAX_DEPTH < n + d → print_expr ctx hA (chainEV n) a d = .error .depthExceeded)
  | 0, d, a => by
      constructor
      · intro hle
        rw [show chainEV 0 = Op.nullary DW_OP_nop from rfl,
            print_expr_nullary ctx hA DW_OP_nop a d (by omega)]
        rfl
      · intro hgt
        exact print_expr_depth_exceeded ctx hA _ a d (by omega)
  | n + 1, d, a => by
      by_cases hdlt : MAX_DEPTH < d
      · constructor
        · intro hle
          omega
        · intro _
          exact print_expr_depth_exceeded ctx hA _ a d hdlt
      · have ih := chainEV_eval ctx hA n (d + 1) a
        have hunf : print_expr ctx hA (chainEV (n + 1)) a d =
            (match print_expr ctx hA (chainEV n) a (d + 1) with
             | .error er => .error er
             | .ok sub => .ok (.opLen DW_OP_entry_value 1 :: sub)) := by
          rw [show chainEV (n + 1) =
                Op.entry_value DW_OP_entry_value true (some [chainEV n]) from rfl,
              print_expr_entry_value ctx hA DW_OP_entry_value true (some [chainEV n]) a d hdlt]
          simp only [Bool.not_true, if_false, ite_false, List.length_singleton]
          rw [print_expr_block_singleton]
          cases print_expr ctx hA (chainEV n) a (d + 1) <;> rfl
        constructor
        · intro hle
          have hok := ih.1 (by omega)
          cases hpe : print_expr ctx hA (chainEV n) a (d + 1) with
          | error er => rw [hpe] at hok; simp [isOk] at hok
          | ok xs => rw [hunf, hpe]; rfl
        · intro hgt
          have herr := ih.2 (by omega)
          rw [hunf, herr]

/-- Claim C3: evaluation recursion is bounded by the explicit cap
`MAX_DEPTH = 64`: any evaluation entered at a depth beyond the cap is the
hard depth-exceeded error; a chain of nested sub-expression evaluations
reaching depth 65 fails with that error, while a chain reaching depth
exactly 64 succeeds. -/
theorem c3_depth_cap :
    (∀ (ctx : Ctx) (hA : Bool) (e : Op) (a d : Nat), MAX_DEPTH < d →
        print_expr ctx hA e a d = Except.error Err.depthExceeded) ∧
    (∀ n a : Nat, MAX_DEPTH < n →
        print_expr ctxPlain true (chainEV n) a 0 = Except.error Err.depthExceeded) ∧
    (∀ a : Nat, isOk (print_expr ctxPlain true (chainEV MAX_DEPTH) a 0) = true) := by
  refine ⟨?_, ?_, ?_⟩
  · exact fun ctx hA e a d h => print_expr_depth_exceeded ctx hA e a d h
  · exact fun n a h => (chainEV_eval ctxPlain true n 0 a).2 (by omega)
  · exact fun a => (chainEV_eval ctxPlain true MAX_DEPTH 0 a).1 (by omega)

/-- Concrete instances for C3: the 65-deep chain hits the depth-exceeded
error, the 64-deep chain succeeds. -/
theorem c3_depth_cap_witness :
    MAX_DEPTH < 65 ∧
    print_expr ctxPlain true (chainEV 65) 0 0 = Except.error Err.depthExceeded ∧
    isOk (print_expr ctxPlain true (chainEV MAX_DEPTH) 0 0) = true :=
  ⟨by decide, c3_depth_cap.2.1 65 0 (by decide), c3_depth_cap.2.2 0⟩

/-- Claim C7, amended: with a NULL source attribute the
canonical-frame-address opcode is a hard error; with an attribute but no
CFI table at all outside `--debug` mode it is the hard no-CFI error even
for relocatable input; with an attribute and no resolvable frame, strict
mode is a hard error, while relaxed/object-file mode (`ET_REL` or
`--debug`) yields the opaque placeholder provided the no-CFI check
passed. -/
theorem c7_cfa_amended (ctx : Ctx) (a d : Nat) (hd : d ≤ MAX_DEPTH) :
    (print_expr ctx false Op.call_frame_cfa a d =
       Except.error (Err.usedInCFI DW_OP_call_frame_cfa)) ∧
    (ctx.cfi_eh_present = false → ctx.cfi_debug_present = false → ctx.is_debug = false →
       print_expr ctx true Op.call_frame_cfa a d = Except.error Err.noCfiFound) ∧
    (cfiAddrframe ctx a = none → ctx.is_ET_REL = false → ctx.is_debug = false →
       ∃ er, print_expr ctx true Op.call_frame_cfa a d = Except.error er) ∧
    (cfiAddrframe ctx a = none →
       (ctx.is_ET_REL = true ∨ ctx.is_debug = true) →
       (ctx.cfi_eh_present = true ∨ ctx.cfi_debug_present = true ∨ ctx.is_debug = true) →
       print_expr ctx true Op.call_frame_cfa a d =
         Except.ok [Item.opname DW_OP_call_frame_cfa, Item.placeholder]) := by
  have hlt : ¬ MAX_DEPTH < d := Nat.not_lt.mpr hd
  refine ⟨?_, ?_, ?_, ?_⟩
  · rw [print_expr_cfa ctx false a d hlt]
    simp
  · intro h1 h2 h3
    rw [print_expr_cfa ctx true a d hlt]
    simp [h1, h2, h3]
  · intro hno hrel hdbg
    cases heh : ctx.cfi_eh_present with
    | false =>
        cases hdb : ctx.cfi_debug_present with
        | false =>
            refine ⟨Err.noCfiFound, ?_⟩
            rw [print_expr_cfa ctx true a d hlt]
            simp [heh, hdb, hdbg]
        | true =>
            refine ⟨Err.addrframeFailed, ?_⟩
            rw [print_expr_cfa ctx true a d hlt]
            simp [heh, hdb, hdbg, hrel, hno]
    | true =>
        refine ⟨Err.addrframeFailed, ?_⟩
        rw [print_expr_cfa ctx true a d hlt]
        simp [heh, hdbg, hrel, hno]
  · intro hno hor hpres
    rw [print_expr_cfa ctx true a d hlt]
    have hcond : ¬ (¬ ctx.cfi_eh_present ∧ ¬ ctx.cfi_debug_present ∧ ¬ ctx.is_debug) := by
      rcases hpres with h | h | h <;> simp [h]
    rw [hno, if_neg hcond]
    rcases hor with h | h <;> simp [h]

/-- Counterexample to C7 as stated: in relaxed/object-file mode
(`ET_REL` input, `--debug` off) with neither CFI table present, the
opcode does not yield the placeholder — the no-CFI check fires first and
it is a hard error. -/
def ctxRelNoCfi : Ctx := ⟨false, false, 0, 0, false, true, true, fun _ => none, fun _ => none⟩

theorem c7_cfa_counterexample :
    ctxRelNoCfi.is_ET_REL = true ∧
    cfiAddrframe ctxRelNoCfi 0 = none ∧
    print_expr ctxRelNoCfi true Op.call_frame_cfa 0 0 = Except.error Err.noCfiFound := by
  refine ⟨rfl, rfl, ?_⟩
  rw [print_expr_cfa ctxRelNoCfi true 0 0 (by decide)]
  simp [ctxRelNoCfi]

/-- Debug-only context with no CFI tables. -/
def ctxDebugOnly : Ctx := ⟨false, false, 0, 0, true, false, true, fun _ => none, fun _ => none⟩

/-- Concrete instances for C7 (amended): in `--debug` mode with an
unresolvable frame the opcode renders the placeholder, and with a NULL
attribute it is the hard usage error. -/
theorem c7_cfa_witness :
    ((0 : Nat) ≤ MAX_DEPTH ∧ cfiAddrframe ctxDebugOnly 5 = none ∧
     ctxDebugOnly.is_debug = true) ∧
    print_expr ctxDebugOnly true Op.call_frame_cfa 5 0 =
      Except.ok [Item.opname DW_OP_call_frame_cfa, Item.placeholder] ∧
    print_expr ctxDebugOnly false Op.call_frame_cfa 5 0 =
      Except.error (Err.usedInCFI DW_OP_call_frame_cfa) :=
  ⟨⟨by decide, rfl, rfl⟩,
   (c7_cfa_amended ctxDebugOnly 5 0 (by decide)).2.2.2 rfl (Or.inr rfl)
     (Or.inr (Or.inr rfl)),
   (c7_cfa_amended ctxDebugOnly 5 0 (by decide)).1⟩

/-- Claim C8: an implicit-value opcode evaluates without a hard error
exactly when both derivation paths succeed and agree — the raw-form block
and the dedicated-accessor block are the same byte list and the declared
operand length equals its length; any disagreement between the two paths
is rejected as a hard (assertion) error. -/
theorem c8_implicit_value_cross_check (ctx : Ctx) (hA : Bool) (n : Nat) (cOk : Bool)
    (blk blkI : Option (List Nat)) (a d : Nat) (hd : d ≤ MAX_DEPTH) :
    (isOk (print_expr ctx hA (Op.implicit_value n cOk blk blkI) a d) = true ↔
       cOk = true ∧ ∃ b, blk = some b ∧ blkI = some b ∧ n = b.length) ∧
    (∀ b bi, cOk = true → blk = some b → blkI = some bi → b ≠ bi →
       print_expr ctx hA (Op.implicit_value n cOk blk blkI) a d =
         Except.error Err.assertFailed) := by
  have hlt : ¬ MAX_DEPTH < d := Nat.not_lt.mpr hd
  rw [print_expr_implicit_value ctx hA n cOk blk blkI a d hlt]
  constructor
  · cases cOk with
    | false => simp [isOk]
    | true =>
        cases blk with
        | none => simp [isOk]
        | some b =>
            cases blkI with
            | none => simp [isOk]
            | some bi =>
                by_cases h1 : n = b.length
                · by_cases h2 : b.length = bi.length
                  · by_cases h3 : b = bi
                    · subst h3; simp [h1, h2, isOk]
                    · simp [h1, h2, h3, isOk]
                      intro h
                      exact absurd h.symm h3
                  · simp [h1, h2, isOk]
                    intro h
                    subst h
                    exact absurd rfl h2
                · simp [h1, isOk]
  · intro b bi hc hb hbI hne
    subst hc; subst hb; subst hbI
    by_cases h1 : n = b.length
    · by_cases h2 : b.length = bi.length
      · simp [h1, h2, hne]
      · simp [h1, h2]
    · simp [h1]

/-- Concrete instances for C8: agreeing blocks of declared length pass;
a one-byte content disagreement is rejected as the assertion error. -/
theorem c8_implicit_value_witness :
    ((0 : Nat) ≤ MAX_DEPTH ∧ ([17, 34] : List Nat) ≠ [17, 35]) ∧
    (isOk (print_expr ctxPlain true
        (Op.implicit_value 2 true (some [17, 34]) (some [17, 34])) 0 0) = true ↔
       true = true ∧ ∃ b, (some [17, 34] : Option (List Nat)) = some b ∧
         (some [17, 34] : Option (List Nat)) = some b ∧ 2 = b.length) ∧
    print_expr ctxPlain true
        (Op.implicit_value 2 true (some [17, 34]) (some [17, 35])) 0 0 =
      Except.error Err.assertFailed :=
  ⟨⟨by decide, by decide⟩,
   (c8_implicit_value_cross_check ctxPlain true 2 true (some [17, 34]) (some [17, 34])
      0 0 (by decide)).1,
   (c8_implicit_value_cross_check ctxPlain true 2 true (some [17, 34]) (some [17, 35])
      0 0 (by decide)).2 [17, 34] [17, 35] rfl rfl rfl (by decide)⟩

/-- Claim C9: for implicit-pointer and variable-value opcodes referencing
a DIE with a location, the location is resolved by the single-shot lookup
at the current address: more than one covering entry is exactly the
lookup's hard error; zero covering entries render the soft
`<no location>`; exactly one covering entry is evaluated; and the
lookup's error is the evaluation's error. -/
theorem c9_single_shot (ctx : Ctx) (a d : Nat) (atom : Nat) (n2 : Int)
    (off : Nat) (ll : List LocEntry) (hd : d ≤ MAX_DEPTH) :
    (getlocation_addr ll a = Except.error Err.multipleLocations ↔
       2 ≤ (coveringExprs a ll 0).length) ∧
    (getlocation_addr ll a = Except.ok none →
       print_expr ctx true (Op.implicit_pointer atom n2 true true true true off false ll) a d =
         Except.ok [Item.dieRefS atom off n2, Item.noLocation] ∧
       print_expr ctx true (Op.variable_value true true off false ll) a d =
         Except.ok [Item.dieRef DW_OP_GNU_variable_value off, Item.noLocation]) ∧
    (∀ ops sub, getlocation_addr ll a = Except.ok (some ops) →
       print_expr_block ctx true ops a (d + 1) = Except.ok sub →
       print_expr ctx true (Op.implicit_pointer atom n2 true true true true off false ll) a d =
         Except.ok (Item.dieRefS atom off n2 :: sub) ∧
       print_expr ctx true (Op.variable_value true true off false ll) a d =
         Except.ok (Item.dieRef DW_OP_GNU_variable_value off :: sub)) ∧
    (∀ er, getlocation_addr ll a = Except.error er →
       print_expr ctx true (Op.implicit_pointer atom n2 true true true true off false ll) a d =
         Except.error er ∧
       print_expr ctx true (Op.variable_value true true off false ll) a d =
         Except.error er) := by
  have hlt : ¬ MAX_DEPTH < d := Nat.not_lt.mpr hd
  refine ⟨?_, ?_, ?_, ?_⟩
  · rcases hc : coveringExprs a ll 0 with _ | ⟨x, xs⟩
    · simp [getlocation_addr, hc]
    · rcases xs with _ | ⟨y, tl⟩
      · simp [getlocation_addr, hc]
      · constructor
        · intro _
          simp
        · intro _
          simp [getlocation_addr, hc]
  · intro hloc
    rw [print_expr_implicit_pointer ctx true atom n2 true true true true off false ll a d hlt,
        print_expr_variable_value ctx true true true off false ll a d hlt]
    simp [hloc]
  · intro ops sub hloc hsub
    rw [print_expr_implicit_pointer ctx true atom n2 true true true true off false ll a d hlt,
        print_expr_variable_value ctx true true true off false ll a d hlt]
    simp [hloc, hsub]
  · intro er hloc
    rw [print_expr_implicit_pointer ctx true atom n2 true true true true off false ll a d hlt,
        print_expr_variable_value ctx true true true off false ll a d hlt]
    simp [hloc]

/-- Concrete instances for C9: an address covered by exactly one range
entry evaluates that entry's expression; two overlapping covering ranges
are the hard multiple-locations error for both opcodes. -/
theorem c9_single_shot_witness :
    ((0 : Nat) ≤ MAX_DEPTH ∧
     getlocation_addr [LocEntry.range 0 10 [Op.nullary DW_OP_nop]] 5 =
       Except.ok (some [Op.nullary DW_OP_nop]) ∧
     getlocation_addr [LocEntry.range 0 10 [], LocEntry.range 2 8 []] 5 =
       Except.error Err.multipleLocations) ∧
    (print_expr ctxPlain true
        (Op.implicit_pointer DW_OP_implicit_pointer 0 true true true true 7 false
          [LocEntry.range 0 10 [Op.nullary DW_OP_nop]]) 5 0 =
       Except.ok (Item.dieRefS DW_OP_implicit_pointer 7 0 :: [Item.opname DW_OP_nop])) ∧
    (print_expr ctxPlain true
        (Op.variable_value true true 7 false
          [LocEntry.range 0 10 [], LocEntry.range 2 8 []]) 5 0 =
       Except.error Err.multipleLocations) :=
  ⟨⟨by decide, by rfl, by rfl⟩,
   ((c9_single_shot ctxPlain 5 0 DW_OP_implicit_pointer 0 7
       [LocEntry.range 0 10 [Op.nullary DW_OP_nop]] (by decide)).2.2.1
     [Op.nullary DW_OP_nop] [Item.opname DW_OP_nop] (by rfl)
     (by rw [print_expr_block_singleton,
             print_expr_nullary ctxPlain true DW_OP_nop 5 1 (by decide)])).1,
   ((c9_single_shot ctxPlain 5 0 DW_OP_implicit_pointer 0 7
       [LocEntry.range 0 10 [], LocEntry.range 2 8 []] (by decide)).2.2.2
     Err.multipleLocations (by rfl)).2⟩

/-- Claim C10: the frame-base-relative opcode is a hard error with a NULL
source attribute (CFI-derived expression) and a hard error when no frame
base is known in scope; when both preconditions hold it renders with its
signed offset operand. -/
theorem c10_fbreg (ctx : Ctx) (n : Int) (a d : Nat) (hd : d ≤ MAX_DEPTH) :
    (print_expr ctx false (Op.fbreg n) a d =
       Except.error (Err.usedInCFI DW_OP_fbreg)) ∧
    (ctx.has_frame_base = false →
       print_expr ctx true (Op.fbreg n) a d = Except.error Err.noFrameBase) ∧
    (ctx.has_frame_base = true →
       print_expr ctx true (Op.fbreg n) a d = Except.ok [Item.opS DW_OP_fbreg n]) := by
  have hlt : ¬ MAX_DEPTH < d := Nat.not_lt.mpr hd
  refine ⟨?_, ?_, ?_⟩
  · rw [print_expr_fbreg ctx false n a d hlt]
    simp
  · intro hfb
    rw [print_expr_fbreg ctx true n a d hlt]
    simp [hfb]
  · intro hfb
    rw [print_expr_fbreg ctx true n a d hlt]
    simp [hfb]

/-- Concrete instances for C10: with an attribute and a known frame base
the opcode renders its signed offset; with a NULL attribute it is the
hard usage error. -/
theorem c10_fbreg_witness :
    ((0 : Nat) ≤ MAX_DEPTH ∧ ctxPlain.has_frame_base = true) ∧
    print_expr ctxPlain true (Op.fbreg (-8)) 0 0 =
      Except.ok [Item.opS DW_OP_fbreg (-8)] ∧
    print_expr ctxPlain false (Op.fbreg (-8)) 0 0 =
      Except.error (Err.usedInCFI DW_OP_fbreg) :=
  ⟨⟨by decide, rfl⟩,
   (c10_fbreg ctxPlain (-8) 0 0 (by decide)).2.2 rfl,
   (c10_fbreg ctxPlain (-8) 0 0 (by decide)).1⟩

end Elfutils
